import Mathlib

/-!
Verification of the echocache coordination layer.

Shallow embedding of the core operations of the logocomune/echocache Go
library: the deduplicated fetch engine (`EchoCache.FetchWithCache`), the
stale-while-revalidate engine (`EchoCacheLazy.FetchWithLazyRefresh` and
`processRefreshTask`), and the distributed refresh-lock protocol of the
NATS-backed store (`natsCache.TryAcquireRefreshLock` / `checkRandValue` /
`ReleaseRefreshLock`) and of the Redis-backed store
(`redisCache.TryAcquireRefreshLock` / `ReleaseRefreshLock`).

Machine integers do not occur on the modelled paths; timestamps and
durations are carried as `Int` (seconds).  Fallible Go calls are embedded
as `Except` / `Option` results.  The external key-value backends (NATS
JetStream KV, Redis) and the `golang.org/x/sync/singleflight` library are
external collaborators whose sources are not part of the repository; they
are modelled by their documented contracts, which each model's doc comment
states.
-/

namespace Echocache

/-- Outcome of a backend `Store.Get(ctx, key)` call, Go signature
`(value T, exists bool, err error)`.  `exists'` is Go's `exists` (a Lean
keyword).  When `exists'` is false, `value` is the backend's zero value. -/
structure GetOutcome (V E : Type) where
  value : V
  exists' : Bool
  err : Option E
  deriving DecidableEq, Repr

/-- Observable outcome of one sequential `FetchWithCache` call: the
returned triple `(value, found, err)` plus the call's side effects — whether
the refresh function was invoked and which value (if any) was passed to
`store.Set`. -/
structure FetchOutcome (V E : Type) where
  value : V
  found : Bool
  err : Option E
  computeInvoked : Bool
  setCalled : Option V
  deriving DecidableEq, Repr

/-- Sequential data path of `EchoCache.FetchWithCache` (echo_cache.go in
package `echocache`, cited as src/unnamed/part_003 lines 170–215).  The
call is modelled for a single caller, so `singleflight.Group.Do` reduces to
invoking the closure directly: the closure's `requestId` then necessarily
equals the caller's `requestId`, and the `interface{}` type assertion on
`singleFlightResult[T]` always succeeds (the group only ever carries values
of that shape).  The concurrent fan-out behaviour of the group is modelled
separately by `RoundState` below.

Control flow from the source: `store.Get` yields `g`; if `g.exists'` the
cached value is returned as `(value, true, nil)` without invoking
`refreshFn`; a `Get` error is logged and ignored (computation proceeds); a
`refreshFn` error is returned as `(zeroValue, false, err)` with no write;
on success the value is passed to `store.Set`, whose error `setErr` is
logged and ignored, and `(value, true, nil)` is returned. -/
def fetchWithCache (zeroValue : V) (g : GetOutcome V E) (refreshFn : Except E V)
    (setErr : Option E) : FetchOutcome V E :=
  if g.exists' then
    { value := g.value, found := true, err := none
      computeInvoked := false, setCalled := none }
  else
    match refreshFn with
    | .error e =>
      { value := zeroValue, found := false, err := some e
        computeInvoked := true, setCalled := none }
    | .ok v =>
      -- `setErr` is deliberately dropped: a Set failure is only logged.
      { value := v, found := true, err := none
        computeInvoked := true, setCalled := some v }

/-- One `FetchWithCache` call against an in-memory single-key backend in
the style of the repository's `SimpleCache` (src/unnamed/part_005): `Get`
never errors and reports `exists` iff a value is present, `Set` never
fails.  Returns the call's outcome and the backend state after the call. -/
def runFetch (zeroValue : V) (st : Option V) (refreshFn : Except E V) :
    FetchOutcome V E × Option V :=
  let g : GetOutcome V E := { value := st.getD zeroValue, exists' := st.isSome, err := none }
  let out := fetchWithCache zeroValue g refreshFn none
  (out, match out.setCalled with
        | some v => some v
        | none => st)

/-- Claim C2: if the backend's `Get` reports the value as existing,
`FetchWithCache` returns that value with `found = true` and never invokes
the compute function (and performs no write). -/
theorem fetchWithCache_hit_bypass (zeroValue : V) (g : GetOutcome V E)
    (refreshFn : Except E V) (setErr : Option E) (h : g.exists' = true) :
    fetchWithCache zeroValue g refreshFn setErr =
      { value := g.value, found := true, err := none
        computeInvoked := false, setCalled := none } := by
  simp [fetchWithCache, h]

/-- Witness for C2 at a concrete input. -/
theorem fetchWithCache_hit_bypass_witness :
    fetchWithCache (0 : Nat) ⟨42, true, none⟩ (Except.error "boom") (some "seterr") =
      (⟨42, true, none, false, none⟩ : FetchOutcome Nat String) :=
  fetchWithCache_hit_bypass 0 ⟨42, true, none⟩ (Except.error "boom") (some "seterr") rfl

/-- Claim C3: the error returned by `FetchWithCache` is non-nil exactly
when the compute function was invoked and returned that error; a backend
`Get` error (with `exists = false`) is ignored and computation proceeds;
and a backend `Set` error after a successful computation is swallowed, the
computed value still being returned as a success. -/
theorem fetchWithCache_error_source (zeroValue : V) (g : GetOutcome V E)
    (refreshFn : Except E V) (setErr : Option E) :
    (∀ e : E, (fetchWithCache zeroValue g refreshFn setErr).err = some e ↔
      (fetchWithCache zeroValue g refreshFn setErr).computeInvoked = true ∧
        refreshFn = Except.error e) ∧
    (g.exists' = false →
      (fetchWithCache zeroValue g refreshFn setErr).computeInvoked = true) ∧
    (∀ v : V, g.exists' = false → refreshFn = Except.ok v →
      fetchWithCache zeroValue g refreshFn setErr =
        { value := v, found := true, err := none
          computeInvoked := true, setCalled := some v }) := by
  refine ⟨fun e => ?_, fun h => ?_, fun v h hok => ?_⟩
  · cases hx : g.exists' <;> cases refreshFn <;>
      simp [fetchWithCache, hx]
  · cases refreshFn <;> simp [fetchWithCache, h]
  · simp [fetchWithCache, h, hok]

/-- Witness for C3 at concrete inputs: a Get error together with a compute
error surfaces exactly the compute error. -/
theorem fetchWithCache_error_source_witness :
    (fetchWithCache (0 : Nat) ⟨0, false, some "getErr"⟩ (Except.error "boom")
        (some "setErr")).err = some "boom" ∧
    (fetchWithCache (0 : Nat) ⟨0, false, some "getErr"⟩ (Except.ok 7)
        (some "setErr")) = (⟨7, true, none, true, some 7⟩ : FetchOutcome Nat String) := by
  constructor
  · exact ((fetchWithCache_error_source (0 : Nat) ⟨0, false, some "getErr"⟩
      (Except.error "boom") (some "setErr")).1 "boom").mpr ⟨by decide, rfl⟩
  · exact (fetchWithCache_error_source (0 : Nat) ⟨0, false, some "getErr"⟩
      (Except.ok 7) (some "setErr")).2.2 7 rfl rfl

/-- Claim C4: when the compute function fails, the call returns the zero
value, `found = false` and the error; nothing is written to the backend;
and a subsequent call for the same key invokes the compute function again
(errors are never cached). -/
theorem fetchWithCache_error_not_cached (zeroValue : V) (e : E)
    (refreshFn2 : Except E V) :
    runFetch zeroValue (none : Option V) (Except.error e) =
      ({ value := zeroValue, found := false, err := some e
         computeInvoked := true, setCalled := none }, none) ∧
    (runFetch zeroValue (runFetch zeroValue (none : Option V) (Except.error e)).2
        refreshFn2).1.computeInvoked = true := by
  refine ⟨rfl, ?_⟩
  cases refreshFn2 <;> rfl

/-- An event in the life of one key's dedup round.  Calls are identified
by natural numbers.  `start c` is a caller arriving on `key` while no
computation is in flight (it becomes the caller whose closure
`singleflight.Group.Do` executes); `join c` is a caller arriving while a
computation is in flight (it blocks on the shared round); `finish v e` is
the in-flight closure completing with compute result `(v, e)`, delivering
that result to every blocked caller of the round. -/
inductive Ev (V E : Type) where
  | start (c : Nat)
  | join (c : Nat)
  | finish (v : V) (e : Option E)
  deriving DecidableEq, Repr

/-- Per-key state of the dedup round, modelling the contract of
`golang.org/x/sync/singleflight.Group.Do` as instantiated by
`FetchWithCache` on a cache miss: at most one execution of the closure is
in flight per key, duplicate callers wait, and all callers of a round
receive the same `(v, err)` result.  (`singleflight` is an external
dependency; its source is not part of the repository.)  `returned` records
each completed caller together with the compute result it observed;
`computeCount` counts executions of the refresh closure. -/
structure RoundState (V E : Type) where
  inFlight : Bool
  waiters : List Nat
  computeCount : Nat
  returned : List (Nat × V × Option E)
  deriving DecidableEq, Repr

/-- Initial round state for an unset key: nothing in flight, the compute
function has never run. -/
def RoundState.init (V E : Type) : RoundState V E :=
  { inFlight := false, waiters := [], computeCount := 0, returned := [] }

/-- One atomic step of the dedup round.  A `start` requires no in-flight
computation, a `join` requires one, and a `finish` delivers the result to
all current waiters, increments the execution count and clears the
round. -/
def stepRound (s : RoundState V E) : Ev V E → Option (RoundState V E)
  | .start c =>
    if s.inFlight then none
    else some { s with inFlight := true, waiters := [c] }
  | .join c =>
    if s.inFlight then some { s with waiters := c :: s.waiters } else none
  | .finish v e =>
    if s.inFlight then
      some { inFlight := false, waiters := []
             computeCount := s.computeCount + 1
             returned := s.waiters.map (fun c => (c, v, e)) ++ s.returned }
    else none

/-- Run a sequence of round events from a state; `none` when some event's
precondition fails. -/
def execRound (s : RoundState V E) : List (Ev V E) → Option (RoundState V E)
  | [] => some s
  | ev :: evs => (stepRound s ev).bind (fun s1 => execRound s1 evs)

/-- How `FetchWithCache` maps the shared compute result delivered by the
round to the triple returned to its caller (source lines 195–214): a
compute error yields `(zeroValue, false, err)`, a success yields
`(v, true, nil)`.  It is the same function of `(v, e)` for every caller of
the round. -/
def deliverTriple (zeroValue : V) (v : V) (e : Option E) : V × Bool × Option E :=
  match e with
  | some err => (zeroValue, false, some err)
  | none => (v, true, none)

/-- Running an event list split at an append chains the two runs. -/
theorem execRound_append (l1 l2 : List (Ev V E)) (a b : RoundState V E)
    (h : execRound a l1 = some b) : execRound a (l1 ++ l2) = execRound b l2 := by
  induction l1 generalizing a with
  | nil =>
    simp only [execRound, Option.some.injEq] at h
    simp [execRound, h]
  | cons x xs ih =>
    simp only [List.cons_append, execRound] at h ⊢
    cases hx : stepRound a x with
    | none =>
      simp only [hx, Option.none_bind] at h
      exact Option.noConfusion h
    | some a1 =>
      simp only [hx, Option.some_bind] at h ⊢
      exact ih a1 h

/-- Joining callers accumulate in front of the waiter list and change
nothing else. -/
theorem execRound_joins (joins : List Nat) (w : List Nat) (n : Nat)
    (r : List (Nat × V × Option E)) :
    execRound { inFlight := true, waiters := w, computeCount := n, returned := r }
        (joins.map Ev.join) =
      some { inFlight := true, waiters := joins.reverse ++ w
             computeCount := n, returned := r } := by
  induction joins generalizing w with
  | nil => simp [execRound]
  | cons c cs ih =>
    simp only [List.map_cons, execRound, stepRound, List.reverse_cons, if_true,
      Option.some_bind]
    rw [ih (c :: w)]
    simp [List.append_assoc]

/-- Claim C1: for a round in which caller `c` starts the computation and
callers `joins` all arrive before it completes with result `(v, e)`, the
compute closure runs exactly once, every caller observes that same
`(v, e)` pair, and hence every caller's `FetchWithCache` returns the
identical triple `deliverTriple zeroValue v e`. -/
theorem fetchWithCache_dedup_round (c : Nat) (joins : List Nat) (v : V)
    (e : Option E) (s : RoundState V E)
    (h : execRound (RoundState.init V E)
        (Ev.start c :: (joins.map Ev.join ++ [Ev.finish v e])) = some s) :
    s.computeCount = 1 ∧
    (∀ p ∈ s.returned, p.2 = (v, e)) ∧
    (∀ cid ∈ c :: joins, (cid, v, e) ∈ s.returned) := by
  have h1 : execRound (RoundState.init V E) [Ev.start c] =
      some { inFlight := true, waiters := [c], computeCount := 0, returned := [] } := by
    simp [execRound, stepRound, RoundState.init]
  have hA : execRound (RoundState.init V E) ([Ev.start c] ++ joins.map Ev.join) =
      some { inFlight := true, waiters := joins.reverse ++ [c]
             computeCount := 0, returned := [] } := by
    rw [execRound_append [Ev.start c] (joins.map Ev.join) _ _ h1]
    exact execRound_joins (V := V) (E := E) joins [c] 0 []
  have htr : (Ev.start c :: (joins.map Ev.join ++ [Ev.finish v e]) : List (Ev V E)) =
      ([Ev.start c] ++ joins.map Ev.join) ++ [Ev.finish v e] := by simp
  rw [htr, execRound_append _ _ _ _ hA] at h
  simp only [execRound, stepRound, if_true, Option.some_bind, Option.some.injEq] at h
  subst h
  refine ⟨rfl, ?_, ?_⟩
  · intro p hp
    simp only [List.append_nil, List.mem_map] at hp
    obtain ⟨cid, _, rfl⟩ := hp
    rfl
  · intro cid hcid
    simp only [List.append_nil, List.mem_map]
    refine ⟨cid, ?_, rfl⟩
    rcases List.mem_cons.mp hcid with h1 | h1
    · subst h1; simp
    · simp [h1]

/-- Witness for C1: a concrete round with starter 0, joiners 1 and 2 and
result `(5, none)`. -/
theorem fetchWithCache_dedup_round_witness :
    ({ inFlight := false, waiters := [], computeCount := 1
       returned := [(2, 5, none), (1, 5, none), (0, 5, none)] } :
        RoundState Nat String).computeCount = 1 ∧
    ((1 : Nat), (5 : Nat), (none : Option String)) ∈
      ({ inFlight := false, waiters := [], computeCount := 1
         returned := [(2, 5, none), (1, 5, none), (0, 5, none)] } :
          RoundState Nat String).returned := by
  have h := fetchWithCache_dedup_round (V := Nat) (E := String) 0 [1, 2] 5 none
    { inFlight := false, waiters := [], computeCount := 1
      returned := [(2, 5, none), (1, 5, none), (0, 5, none)] } (by decide)
  exact ⟨h.1, h.2.2 1 (by decide)⟩

/-- A Go `context.Context`, abstracted to its cancellation state.  Timer
expiry of a `WithTimeout` deadline is real time and is not modelled; only
the propagation of cancellation from parent to child is. -/
structure Ctx where
  cancelled : Bool
  deriving DecidableEq, Repr

/-- Model of `context.WithTimeout(parent, d)`: the child context is
cancelled exactly when its parent is (expiry of the timer itself is not
modelled). -/
def withTimeout (parent : Ctx) (_d : Int) : Ctx :=
  { cancelled := parent.cancelled }

/-- A timestamped cache entry, `store.StaleValue[T]` with fields `Value`
and `CreatedAt` (timestamps as `Int` seconds). -/
structure StaleValue (V : Type) where
  val : V
  createdAt : Int
  deriving DecidableEq, Repr

/-- Outcome of `store.Get` on a stale-while-revalidate backend, Go
signature `(value StaleValue[T], exists bool, err error)`. -/
structure LazyGetOutcome (V E : Type) where
  value : StaleValue V
  exists' : Bool
  err : Option E
  deriving DecidableEq, Repr

/-- Capacity of the refresh task queue: `make(chan refreshTask[T], 1000)`
in `NewLazyEchoCache`. -/
def queueCapacity : Nat := 1000

/-- Observable outcome of one `FetchWithLazyRefresh` call: the returned
triple, the side effects on the refresh queue (which keys it holds after
the call, whether an enqueue was attempted, whether the task was dropped
because the channel was full), and the compute side effects (whether the
refresh function ran, the context it was handed, the entry passed to
`store.Set`). -/
structure LazyOutcome (V E : Type) where
  value : V
  found : Bool
  err : Option E
  computeInvoked : Bool
  computeCtx : Option Ctx
  setCalled : Option (StaleValue V)
  queue' : List String
  enqueueAttempted : Bool
  dropped : Bool
  deriving DecidableEq, Repr

/-- Model of `EchoCacheLazy.processRefreshTask` (src/unnamed/part_002 lines
168–206), sequential single-task data path.  The task context is
`context.WithTimeout(ec.ctx, ec.refreshTimeout)` where `ec.ctx` is the
engine's background context created in `NewLazyEchoCache` — not any
caller's context.  With a single task, `singleflight.Group.Do` reduces to
invoking the closure, whose `requestId` matches the task's, so on success
the `StaleValue` built from the result and its computation time is passed
to `store.Set` (a `Set` error is only logged).  The `refreshTimeout`
parameter of the Go function is unused by its body, which reads
`ec.refreshTimeout` instead; the model keeps the same shape. -/
def processRefreshTask (zeroValue : V) (engineCtx : Ctx) (_timeoutArg : Int)
    (ecRefreshTimeout : Int) (refreshFn : Ctx → Except E V) (computedAt : Int)
    (queue : List String) : LazyOutcome V E :=
  let taskContext := withTimeout engineCtx ecRefreshTimeout
  match refreshFn taskContext with
  | .error e =>
    { value := zeroValue, found := false, err := some e
      computeInvoked := true, computeCtx := some taskContext, setCalled := none
      queue' := queue, enqueueAttempted := false, dropped := false }
  | .ok v =>
    { value := v, found := true, err := none
      computeInvoked := true, computeCtx := some taskContext
      setCalled := some { val := v, createdAt := computedAt }
      queue' := queue, enqueueAttempted := false, dropped := false }

/-- Model of `EchoCacheLazy.FetchWithLazyRefresh` (src/unnamed/part_002 lines
130–164).  `g` is the outcome of `store.Get(ctx, key)` (the only use the
source makes of the caller's context `callerCtx`); `now` is `time.Now()`
at the staleness check.  On a hit, the cached value is returned and, when
`CreatedAt + lazyRefreshInterval` lies strictly before `now`, a refresh
task is offered to the queue with a non-blocking `select` that drops the
task when the channel is full.  A miss (after logging any `Get` error)
runs `processRefreshTask` synchronously, passing `lazyRefreshInterval` as
its (unused) timeout argument. -/
def fetchWithLazyRefresh (zeroValue : V) (g : LazyGetOutcome V E) (now : Int)
    (lazyRefreshInterval : Int) (queue : List String) (key : String)
    (callerCtx engineCtx : Ctx) (ecRefreshTimeout : Int)
    (refreshFn : Ctx → Except E V) (computedAt : Int) : LazyOutcome V E :=
  if g.exists' then
    if g.value.createdAt + lazyRefreshInterval < now then
      if queue.length < queueCapacity then
        { value := g.value.val, found := true, err := none
          computeInvoked := false, computeCtx := none, setCalled := none
          queue' := queue ++ [key], enqueueAttempted := true, dropped := false }
      else
        { value := g.value.val, found := true, err := none
          computeInvoked := false, computeCtx := none, setCalled := none
          queue' := queue, enqueueAttempted := true, dropped := true }
    else
      { value := g.value.val, found := true, err := none
        computeInvoked := false, computeCtx := none, setCalled := none
        queue' := queue, enqueueAttempted := false, dropped := false }
  else
    -- `callerCtx` is dropped here: the miss path hands the computation to
    -- `processRefreshTask`, which derives its context from `engineCtx`.
    processRefreshTask zeroValue engineCtx lazyRefreshInterval ecRefreshTimeout
      refreshFn computedAt queue

/-- Claim C5: a `FetchWithLazyRefresh` call that finds a cached entry
returns it immediately with `found = true` and no computation; an enqueue
is attempted iff `CreatedAt + freshnessWindow` lies before `now`; the
attempt is non-blocking, the task being dropped exactly when the queue is
full; and a fresh entry triggers nothing. -/
theorem fetchWithLazyRefresh_hit (zeroValue : V) (g : LazyGetOutcome V E)
    (now lazyRefreshInterval : Int) (queue : List String) (key : String)
    (callerCtx engineCtx : Ctx) (ecRefreshTimeout : Int)
    (refreshFn : Ctx → Except E V) (computedAt : Int) (h : g.exists' = true) :
    (fetchWithLazyRefresh zeroValue g now lazyRefreshInterval queue key callerCtx
        engineCtx ecRefreshTimeout refreshFn computedAt).value = g.value.val ∧
    (fetchWithLazyRefresh zeroValue g now lazyRefreshInterval queue key callerCtx
        engineCtx ecRefreshTimeout refreshFn computedAt).found = true ∧
    (fetchWithLazyRefresh zeroValue g now lazyRefreshInterval queue key callerCtx
        engineCtx ecRefreshTimeout refreshFn computedAt).err = none ∧
    (fetchWithLazyRefresh zeroValue g now lazyRefreshInterval queue key callerCtx
        engineCtx ecRefreshTimeout refreshFn computedAt).computeInvoked = false ∧
    ((fetchWithLazyRefresh zeroValue g now lazyRefreshInterval queue key callerCtx
        engineCtx ecRefreshTimeout refreshFn computedAt).enqueueAttempted = true ↔
      g.value.createdAt + lazyRefreshInterval < now) ∧
    ((fetchWithLazyRefresh zeroValue g now lazyRefreshInterval queue key callerCtx
        engineCtx ecRefreshTimeout refreshFn computedAt).dropped = true ↔
      (g.value.createdAt + lazyRefreshInterval < now ∧
        queueCapacity ≤ queue.length)) ∧
    (fetchWithLazyRefresh zeroValue g now lazyRefreshInterval queue key callerCtx
        engineCtx ecRefreshTimeout refreshFn computedAt).queue' =
      (if g.value.createdAt + lazyRefreshInterval < now ∧
          queue.length < queueCapacity then queue ++ [key] else queue) := by
  by_cases hst : g.value.createdAt + lazyRefreshInterval < now <;>
    by_cases hq : queue.length < queueCapacity <;>
      simp [fetchWithLazyRefresh, h, hst, hq] <;>
        omega

/-- Witness for C5 at a concrete input: a fresh entry (created now, one
hour window) is returned as-is and triggers no enqueue and no compute. -/
theorem fetchWithLazyRefresh_hit_witness :
    (fetchWithLazyRefresh (0 : Nat) (E := String) ⟨⟨9, 100⟩, true, none⟩ 100 3600 []
        "k" ⟨false⟩ ⟨false⟩ 30 (fun _ => Except.ok 1) 100).computeInvoked = false ∧
    (fetchWithLazyRefresh (0 : Nat) (E := String) ⟨⟨9, 100⟩, true, none⟩ 100 3600 []
        "k" ⟨false⟩ ⟨false⟩ 30 (fun _ => Except.ok 1) 100).enqueueAttempted = false := by
  have h := fetchWithLazyRefresh_hit (0 : Nat) (E := String) ⟨⟨9, 100⟩, true, none⟩
    100 3600 [] "k" ⟨false⟩ ⟨false⟩ 30 (fun _ => Except.ok 1) 100 rfl
  refine ⟨h.2.2.2.1, ?_⟩
  rcases hx : (fetchWithLazyRefresh (0 : Nat) (E := String) ⟨⟨9, 100⟩, true, none⟩
      100 3600 [] "k" ⟨false⟩ ⟨false⟩ 30 (fun _ => Except.ok 1) 100).enqueueAttempted
  · rfl
  · exact absurd (h.2.2.2.2.1.mp hx) (by decide)

/-- Counterexample to claim C9 as stated.  On a miss, with the caller's
context already cancelled, the engine's background context alive, and a
compute function that faithfully aborts with an error whenever the context
it receives is cancelled, the call nevertheless succeeds: the compute
function is handed the engine-derived context (not cancelled) and the call
returns `(7, true, nil)` with no cancellation error. -/
theorem fetchWithLazyRefresh_miss_ignores_caller_cancel :
    (fetchWithLazyRefresh (0 : Nat) (E := String) ⟨⟨0, 0⟩, false, none⟩ 0 0 [] "k"
        { cancelled := true } { cancelled := false } 30
        (fun c => if c.cancelled then Except.error "context canceled"
                  else Except.ok 7) 0).err = none ∧
    (fetchWithLazyRefresh (0 : Nat) (E := String) ⟨⟨0, 0⟩, false, none⟩ 0 0 [] "k"
        { cancelled := true } { cancelled := false } 30
        (fun c => if c.cancelled then Except.error "context canceled"
                  else Except.ok 7) 0).value = 7 ∧
    (fetchWithLazyRefresh (0 : Nat) (E := String) ⟨⟨0, 0⟩, false, none⟩ 0 0 [] "k"
        { cancelled := true } { cancelled := false } 30
        (fun c => if c.cancelled then Except.error "context canceled"
                  else Except.ok 7) 0).computeCtx = some { cancelled := false } := by
  refine ⟨rfl, rfl, rfl⟩

/-- Claim C9 as amended: on a cache miss, `FetchWithLazyRefresh` invokes
the compute function synchronously but with a context derived (via the
refresh timeout) from the engine's background context, not from the
caller's; in particular the outcome is identical for any two caller
contexts, so cancelling the caller's context neither aborts the
computation nor surfaces as an error. -/
theorem fetchWithLazyRefresh_miss_engine_ctx (zeroValue : V)
    (g : LazyGetOutcome V E) (now lazyRefreshInterval : Int)
    (queue : List String) (key : String) (engineCtx : Ctx)
    (ecRefreshTimeout : Int) (refreshFn : Ctx → Except E V) (computedAt : Int)
    (h : g.exists' = false) :
    (∀ callerCtx : Ctx,
      (fetchWithLazyRefresh zeroValue g now lazyRefreshInterval queue key
          callerCtx engineCtx ecRefreshTimeout refreshFn computedAt).computeInvoked
        = true ∧
      (fetchWithLazyRefresh zeroValue g now lazyRefreshInterval queue key
          callerCtx engineCtx ecRefreshTimeout refreshFn computedAt).computeCtx
        = some (withTimeout engineCtx ecRefreshTimeout)) ∧
    (∀ callerCtx1 callerCtx2 : Ctx,
      fetchWithLazyRefresh zeroValue g now lazyRefreshInterval queue key
          callerCtx1 engineCtx ecRefreshTimeout refreshFn computedAt =
        fetchWithLazyRefresh zeroValue g now lazyRefreshInterval queue key
          callerCtx2 engineCtx ecRefreshTimeout refreshFn computedAt) := by
  constructor
  · intro callerCtx
    cases hc : refreshFn (withTimeout engineCtx ecRefreshTimeout) <;>
      simp [fetchWithLazyRefresh, processRefreshTask, h, hc]
  · intro callerCtx1 callerCtx2
    simp [fetchWithLazyRefresh, h]

/-- Witness for the amended C9 at a concrete input. -/
theorem fetchWithLazyRefresh_miss_engine_ctx_witness :
    (fetchWithLazyRefresh (0 : Nat) (E := String) ⟨⟨0, 0⟩, false, none⟩ 0 0 [] "k"
        { cancelled := true } { cancelled := false } 30
        (fun _ => Except.ok 7) 0).computeCtx = some { cancelled := false } :=
  ((fetchWithLazyRefresh_miss_engine_ctx (0 : Nat) (E := String) ⟨⟨0, 0⟩, false, none⟩
      0 0 [] "k" { cancelled := false } 30 (fun _ => Except.ok 7) 0 rfl).1
    { cancelled := true }).2

/-- Error sentinels of the NATS JetStream key-value contract that the lock
code compares against: `jetstream.ErrKeyNotFound` (returned by `Get` on an
absent key) and `jetstream.ErrKeyExists` (returned by `Create` on an
existing key). -/
inductive NatsErr where
  | keyNotFound
  | keyExists
  deriving DecidableEq, Repr

/-- Parsed content of the lock record stored under `lock:<key>`.  The
source stores the byte string `randValue + "|" + now.Format(RFC3339)`; a
readable record that splits on `|` into exactly two parts with a parseable
timestamp is `stored token ts`, and any other readable content (nil bytes,
wrong arity, unparseable timestamp) is `malformed`.  The cell itself is an
`Option LockVal`, `none` meaning the key is absent. -/
inductive LockVal where
  | malformed
  | stored (token : String) (ts : Int)
  deriving DecidableEq, Repr

/-- NATS `kv.Get` on the lock key: an absent key yields
`jetstream.ErrKeyNotFound`, otherwise the record's content. -/
def natsKvGet (cell : Option LockVal) : Except NatsErr LockVal :=
  match cell with
  | none => .error .keyNotFound
  | some v => .ok v

mutual

/-- Model of `natsCache.TryAcquireRefreshLock` (src/unnamed/part_011 lines
89–102) over the lock cell for one key.  `kv.Create` is atomic
create-if-absent: on an absent cell it succeeds and the call returns
true; on an existing cell it fails with `jetstream.ErrKeyExists` and the
call defers to `checkRandValue`.  The model is sequential (no interleaved
process), so `kv` infrastructure errors other than the two sentinels do
not occur.  The recursion of the source (`checkRandValue` retries
acquisition after deleting a malformed or expired record) is embedded with
an explicit `fuel` bound; every retry happens after the cell was deleted,
so fuel 2 suffices for any input.  Result: `((acquired, err), cell')`. -/
def natsTryAcquireRefreshLock (fuel : Nat) (cell : Option LockVal)
    (randValue : String) (ttl : Int) (now : Int) :
    (Bool × Option NatsErr) × Option LockVal :=
  match fuel with
  | 0 => ((false, none), cell)
  | fuel + 1 =>
    match cell with
    | none => ((true, none), some (.stored randValue now))
    | some v => natsCheckRandValue fuel (some v) randValue ttl now

/-- Model of `natsCache.checkRandValue` (src/unnamed/part_011 lines 106–154).
Reads the record back; on a read error it deletes the key and returns
`(false, err)`; a malformed record is deleted and acquisition retried; a
record holding a DIFFERENT token returns `(false, nil)` with no mutation —
the source performs this comparison before ever looking at the timestamp;
a record holding the caller's own token is re-acquired: if its age exceeds
`ttl` the record is deleted and acquisition retried, otherwise `kv.Put`
refreshes the timestamp and the call returns true. -/
def natsCheckRandValue (fuel : Nat) (cell : Option LockVal)
    (randValue : String) (ttl : Int) (now : Int) :
    (Bool × Option NatsErr) × Option LockVal :=
  match natsKvGet cell with
  | .error e => ((false, some e), none)
  | .ok .malformed => natsTryAcquireRefreshLock fuel none randValue ttl now
  | .ok (.stored token ts) =>
    if token ≠ randValue then ((false, none), cell)
    else if now - ts > ttl then natsTryAcquireRefreshLock fuel none randValue ttl now
    else ((true, none), some (.stored randValue now))

end

/-- Model of `natsCache.ReleaseRefreshLock` (src/unnamed/part_011 lines 157–184).
Reads the record; on a read error the source compares against
`jetstream.ErrKeyExists` — the comment says "Lock does not exist", but a
`Get` on an absent key returns `ErrKeyNotFound`, which this comparison
does not match, so the error is returned to the caller.  A malformed
record is deleted (returning the delete's nil error); a record holding a
different token is left intact with a nil error; the caller's own record
is deleted.  Result: `(err, cell')`. -/
def natsReleaseRefreshLock (cell : Option LockVal) (randValue : String) :
    Option NatsErr × Option LockVal :=
  match natsKvGet cell with
  | .error e => if e = NatsErr.keyExists then (none, cell) else (some e, cell)
  | .ok .malformed => (none, none)
  | .ok (.stored token _) =>
    if token ≠ randValue then (none, cell)
    else (none, none)

/-- A live Redis key with a value and an absolute expiry instant; Redis
expires keys natively, so a cell whose `expireAt` is not after `now`
behaves as absent.  This models the Redis string contract used by the
lock code: `SetNX` (set with TTL if absent), `Get` (value or `redis.Nil`),
`Expire` (reset TTL), `Del`. -/
structure RedisCell where
  value : String
  expireAt : Int
  deriving DecidableEq, Repr

/-- The value a live (unexpired) cell currently holds, if any. -/
def redisLive (cell : Option RedisCell) (now : Int) : Option String :=
  match cell with
  | none => none
  | some c => if now < c.expireAt then some c.value else none

/-- Duration `time.Minute` in the model's seconds. -/
def goMinute : Int := 60

/-- Model of `redisCache.TryAcquireRefreshLock` (src/store/redis_cache.go lines
77–98) over the lock cell for one key at instant `now`.  `SetNX` succeeds
iff no live value exists, storing `randValue` with expiry `now + ttl`.
Otherwise the stored value is fetched (`redis.Nil` would leave it empty
and fall through); a different stored value returns `(false, nil)` with no
mutation; the caller's own value is renewed with
`Expire(lockKey, time.Minute)` — the hardcoded `time.Minute`, not the
`ttl` argument — and the call returns true.  Result:
`((acquired, err), cell')` with errors modelled as never occurring
(sequential, healthy backend). -/
def redisTryAcquireRefreshLock (cell : Option RedisCell) (randValue : String)
    (ttl : Int) (now : Int) : (Bool × Option Unit) × Option RedisCell :=
  match redisLive cell now with
  | none => ((true, none), some { value := randValue, expireAt := now + ttl })
  | some storedValue =>
    if storedValue ≠ randValue then ((false, none), cell)
    else ((true, none), some { value := storedValue, expireAt := now + goMinute })

/-- Model of `redisCache.ReleaseRefreshLock` (src/store/redis_cache.go lines
103–117): a `redis.Nil` read (absent or expired key) succeeds silently; a
different stored value succeeds silently without deleting; the caller's
own value is deleted.  Result: `(err, cell')`. -/
def redisReleaseRefreshLock (cell : Option RedisCell) (randValue : String)
    (now : Int) : Option Unit × Option RedisCell :=
  match redisLive cell now with
  | none => (none, cell)
  | some storedValue =>
    if storedValue ≠ randValue then (none, cell)
    else (none, none)

/-- Claim C6, evaluated at the failing input (NATS implementation).  The
lock record holds token "other" with timestamp 0; the caller presents
token "mine" at `now = 100` with `ttl = 5`, so the record's age (100)
exceeds the ttl.  The claim requires the abandoned record to be deleted
and the acquisition retried and to succeed; the code instead compares the
tokens before ever reading the timestamp and returns `(false, nil)`,
leaving the record in place: an expired foreign lock is never stolen. -/
theorem natsTryAcquire_expired_foreign_lock_not_stolen :
    natsTryAcquireRefreshLock 2 (some (.stored "other" 0)) "mine" 5 100 =
      ((false, none), some (.stored "other" 0)) := by
  simp [natsTryAcquireRefreshLock, natsCheckRandValue, natsKvGet]

/-- Claim C7, evaluated at the failing input (NATS implementation).
Releasing when no lock record exists should succeed silently; instead the
`Get` error `jetstream.ErrKeyNotFound` is compared against
`jetstream.ErrKeyExists` (next to the comment "Lock does not exist") and,
not matching, is returned to the caller. -/
theorem natsRelease_absent_lock_returns_error :
    natsReleaseRefreshLock (none : Option LockVal) "token" =
      (some NatsErr.keyNotFound, none) :=
  rfl

/-- Claim C8: two successive `TryAcquireRefreshLock` calls with the same
key, token and ttl both return true, the renewal refreshing the record.
For the NATS store the second call matches the stored token and either
refreshes the timestamp via `Put` (age within ttl) or deletes and
re-creates the record (age beyond ttl), in both cases acquiring with the
current timestamp; for the Redis store the second call either renews via
`Expire` (lock still live) or re-creates via `SetNX` (expired), in both
cases returning true. -/
theorem tryAcquireRefreshLock_idempotent_reentry (token : String)
    (ttl now1 now2 : Int) :
    natsTryAcquireRefreshLock 2 none token ttl now1 =
      ((true, none), some (.stored token now1)) ∧
    natsTryAcquireRefreshLock 2 (some (.stored token now1)) token ttl now2 =
      ((true, none), some (.stored token now2)) ∧
    redisTryAcquireRefreshLock none token ttl now1 =
      ((true, none), some { value := token, expireAt := now1 + ttl }) ∧
    (redisTryAcquireRefreshLock
        (some { value := token, expireAt := now1 + ttl }) token ttl now2).1.1
      = true := by
  refine ⟨?_, ?_, rfl, ?_⟩
  · simp [natsTryAcquireRefreshLock]
  · simp only [natsTryAcquireRefreshLock, natsCheckRandValue, natsKvGet,
      ne_eq, not_true_eq_false, if_false]
    split <;> simp [natsTryAcquireRefreshLock]
  · by_cases hl : now2 < now1 + ttl <;>
      simp [redisTryAcquireRefreshLock, redisLive, hl]

/-- Claim C10: while the Redis lock record is live and holds the caller's
own token, re-acquisition returns true and resets the record's expiry to
`now + time.Minute`, whatever `ttl` was passed: the renewed lifetime is
independent of the ttl argument. -/
theorem redisTryAcquire_renewal_expires_in_one_minute (token : String)
    (d ttl now : Int) (h : now < d) :
    redisTryAcquireRefreshLock (some { value := token, expireAt := d }) token
        ttl now =
      ((true, none), some { value := token, expireAt := now + goMinute }) := by
  simp [redisTryAcquireRefreshLock, redisLive, h]

/-- Witness for C10 at a concrete input: a renewal with `ttl = 999`
still expires 60 seconds later. -/
theorem redisTryAcquire_renewal_expires_in_one_minute_witness :
    redisTryAcquireRefreshLock (some { value := "t", expireAt := 10 }) "t"
        999 0 =
      ((true, none), some { value := "t", expireAt := 60 }) :=
  redisTryAcquire_renewal_expires_in_one_minute "t" 10 999 0 (by decide)

end Echocache
